import Mathlib

/-!
Shallow embedding of the shopping-list application (`core/items.py`,
`core/shoppinglist.py`, `shoppinglistapp/core/appengine.py`, `app_cli.py`)
and verification of the frozen claims about it.

Conventions of the embedding:
* Python floats are modelled as exact rationals (`ℚ`); `round(x, 2)` is
  round-half-to-even at two decimals (`round2`), which is Python's rounding
  rule on the exact value.
* Stateful methods become pure functions; methods that can raise return
  `Except PyErr _` with an explicit error value for each `raise` site.
* `random.*` calls take explicit oracle arguments (a number or a stream of
  numbers) that determine the choice, so every function is deterministic.
* Decimal rendering is done with an explicit digit list (`natDigits`) rather
  than `toString`, so that rendered strings are kernel-computable and their
  lengths are provable.
-/

/-- The Python exceptions that the sources can raise: the custom errors of
`core/errors.py` together with the builtin `ValueError`, `IndexError`,
`TypeError` and `AttributeError`. -/
inductive PyErr where
  | valueError
  | indexError
  | typeError
  | attributeError
  | invalidItemName
  | invalidItemPrice
  | invalidItemPool
  | nonExistingItem (name : String)
  | duplicateItem
  | invalidShoppingListSize
deriving DecidableEq

/-- Round-half-to-even of a rational to an integer (Python's `round(x)`
rule on exact values). -/
def rhe (q : ℚ) : ℤ :=
  let f := ⌊q⌋
  let r := q - f
  if r < 1/2 then f
  else if 1/2 < r then f + 1
  else if f % 2 = 0 then f else f + 1

/-- Python's `round(x, 2)` on the exact value of `x`. -/
def round2 (q : ℚ) : ℚ := (rhe (q * 100) : ℚ) / 100

theorem rhe_intCast (n : ℤ) : rhe (n : ℚ) = n := by
  unfold rhe
  norm_num

theorem round2_cents (n : ℤ) : round2 ((n : ℚ) / 100) = (n : ℚ) / 100 := by
  unfold round2
  rw [div_mul_cancel₀ _ (by norm_num : (100 : ℚ) ≠ 0), rhe_intCast]

/-- Decimal digits of a natural number, least significant first, with
explicit fuel (`n` itself suffices) so that the kernel can evaluate it. -/
def digitsFuel : ℕ → ℕ → List ℕ
  | 0, _ => []
  | _ + 1, 0 => []
  | f + 1, n + 1 => (n + 1) % 10 :: digitsFuel f ((n + 1) / 10)

/-- Decimal digits of a natural number, least significant first. -/
def natDigits (n : ℕ) : List ℕ := digitsFuel n n

theorem digitsFuel_eq (f n : ℕ) (h : n ≤ f) : digitsFuel f n = Nat.digits 10 n := by
  induction f generalizing n with
  | zero =>
    interval_cases n
    simp [digitsFuel]
  | succ f ih =>
    cases n with
    | zero => simp [digitsFuel]
    | succ n =>
      rw [digitsFuel, Nat.digits_def' (by norm_num : 1 < 10) (Nat.succ_pos n), ih]
      exact Nat.lt_succ_iff.mp (Nat.lt_of_lt_of_le (Nat.div_lt_self (Nat.succ_pos n) (by norm_num)) h)

theorem natDigits_eq (n : ℕ) : natDigits n = Nat.digits 10 n :=
  digitsFuel_eq n n le_rfl

/-- Decimal rendering of a natural number (what Python prints for an `int`
or for the integer part of a float). -/
def natStr (n : ℕ) : String :=
  if n = 0 then "0" else String.mk ((natDigits n).reverse.map Nat.digitChar)

theorem natStr_length (n : ℕ) : (natStr n).length = Nat.log 10 n + 1 := by
  unfold natStr
  by_cases h : n = 0
  · simp [h]
    rfl
  · simp only [h, if_false]
    show ((natDigits n).reverse.map Nat.digitChar).length = _
    rw [List.length_map, List.length_reverse, natDigits_eq,
      Nat.digits_len 10 n (by norm_num) h]

/-- Decimal rendering of an integer. -/
def intStr (i : ℤ) : String :=
  if i < 0 then "-" ++ natStr i.natAbs else natStr i.toNat

/-- Two-digit, zero-padded rendering of a value in `[0, 100)` (the cent part
of a `%.2f` rendering). -/
def pad2 (n : ℕ) : String :=
  if n < 10 then "0" ++ natStr n else natStr n

theorem pad2_length (n : ℕ) (h : n < 100) : (pad2 n).length = 2 := by
  unfold pad2
  by_cases h10 : n < 10
  · rw [if_pos h10, String.length_append, natStr_length,
      Nat.log_eq_zero_iff.mpr (Or.inl h10)]
    rfl
  · rw [if_neg h10, natStr_length,
      Nat.log_eq_of_pow_le_of_lt_pow (by omega : 10 ^ 1 ≤ n) (by omega : n < 10 ^ 2)]

/-- Python's `"%.2f" % q` / `f"{q:.2f}"` on the exact value `q`: round
half-to-even at two decimals, then render with exactly two fractional
digits. -/
def fmt2 (q : ℚ) : String :=
  let n := rhe (q * 100)
  if n < 0 then "-" ++ natStr (n.natAbs / 100) ++ "." ++ pad2 (n.natAbs % 100)
  else natStr (n.toNat / 100) ++ "." ++ pad2 (n.toNat % 100)

/-- Python's zero padding of a numeral to width `w` (format spec `0{w}`):
pad with leading zeros after the sign, no-op if the string is already at
least `w` long. -/
def py0pad (w : ℕ) (s : String) : String :=
  if w ≤ s.length then s
  else if s.data.head? = some '-' then
    String.mk ('-' :: (List.replicate (w - s.length) '0' ++ s.data.tail))
  else String.mk (List.replicate (w - s.length) '0' ++ s.data)

theorem py0pad_length (w : ℕ) (s : String) : (py0pad w s).length = max w s.length := by
  unfold py0pad
  have hlen : s.length = s.data.length := rfl
  by_cases h : w ≤ s.length
  · rw [if_pos h, Nat.max_eq_right h]
  · rw [if_neg h]
    by_cases hd : s.data.head? = some '-'
    · rw [if_pos hd]
      have hne : s.data ≠ [] := by
        intro hnil
        rw [hnil] at hd
        exact Option.noConfusion hd
      have htail : s.data.tail.length = s.data.length - 1 := List.length_tail _
      have hpos : 0 < s.data.length := List.length_pos.mpr hne
      show ('-' :: (List.replicate (w - s.length) '0' ++ s.data.tail)).length = _
      simp only [List.length_cons, List.length_append, List.length_replicate, htail]
      omega
    · rw [if_neg hd]
      show (List.replicate (w - s.length) '0' ++ s.data).length = _
      simp only [List.length_append, List.length_replicate]
      omega

/-- Python string slice `s[n:]` (by code points), list-based so that the
kernel can evaluate it. -/
def pyDrop (s : String) (n : ℕ) : String := String.mk (s.data.drop n)

/-- One step list of `str.split(sep)` with explicit fuel (the length of the
input suffices): scan for the separator, emitting the chunk collected so
far whenever the remaining input starts with `sep`. -/
def splitFuel (sep : List Char) : ℕ → List Char → List Char → List (List Char)
  | 0, cs, acc => [acc.reverse ++ cs]
  | f + 1, cs, acc =>
    match cs with
    | [] => [acc.reverse]
    | c :: rest =>
      if sep.isPrefixOf cs then acc.reverse :: splitFuel sep f (cs.drop sep.length) []
      else splitFuel sep f rest (c :: acc)

/-- Python `s.split(sep)` for a non-empty separator. -/
def pySplit (s sep : String) : List String :=
  (splitFuel sep.data s.data.length s.data []).map String.mk

/-- Python `s.startswith(pre)`. -/
def pyStartsWith (s pre : String) : Bool := pre.data.isPrefixOf s.data

/-- An item of the catalog (`core/items.py`, class `Item`): a name and a
price; the constructor stores the price rounded to two decimals. -/
structure Item where
  name : String
  price : ℚ
deriving DecidableEq

/-- `Item.__init__` (`core/items.py` lines 29-46): raises
`InvalidItemNameError` on an empty name, `InvalidItemPriceError` when the
price is not positive, and otherwise stores `round(price, 2)`.  (The
`isinstance` checks of the source are discharged statically by the types of
the embedding.) -/
def Item.construct (name : String) (price : ℚ) : Except PyErr Item :=
  if name = "" then .error .invalidItemName
  else if price ≤ 0 then .error .invalidItemPrice
  else .ok { name := name, price := round2 price }

/-- Python's `round(x, 10)` over the exact reals: round to a multiple of
10⁻¹⁰.  The formula is round-half-up; Python rounds half-to-even, but on
every input this program reaches — `x = log₁₀ q` for a positive rational
`q` — an exact tie `x·10¹⁰ ∈ ℤ + 1/2` is impossible (`log₁₀ q` is rational
only when `q` is an integer power of ten, and then the fraction is 0), so
the two rules agree. -/
noncomputable def pyRound10 (x : ℝ) : ℝ := (⌊x * 10 ^ 10 + 1 / 2⌋ : ℝ) / 10 ^ 10

/-- `Item.get_order` (`core/items.py` lines 48-55):
`math.floor(round(math.log(self.price, 10), 10))`, modelled over the exact
reals: the floor of `log₁₀ price` rounded to 10 decimal places.  The
rounding lifts a logarithm lying within 5·10⁻¹¹ below an integer up to it
(its purpose at exact powers of ten, but it equally fires at valid prices
such as 99999999.99), so this is `⌊log₁₀ price⌋ + 1` on that fringe and
`⌊log₁₀ price⌋` everywhere else — see `floor_round10_logb_eq`.  (The
source raises a math domain `ValueError` for `price ≤ 0`; the model is
only used at positive prices.) -/
noncomputable def Item.get_order (it : Item) : ℤ :=
  ⌊pyRound10 (Real.logb 10 (it.price : ℝ))⌋

/-- Characterization of `Int.log 10` on rationals by powers of ten. -/
theorem intLog10_eq {q : ℚ} {k : ℤ} (h1 : (10 : ℚ) ^ k ≤ q) (h2 : q < (10 : ℚ) ^ (k + 1)) :
    Int.log 10 q = k := by
  have hq : 0 < q := lt_of_lt_of_le (by positivity) h1
  have hk : k ≤ Int.log 10 q := (Int.zpow_le_iff_le_log (by norm_num) hq).mp h1
  have hk' : Int.log 10 q < k + 1 := (Int.lt_zpow_iff_log_lt (by norm_num) hq).mp h2
  omega

/-- `Item.get_price_str` (`core/items.py` lines 57-93).  `quantity=None`
defaults to 1; `total = round(price * qty, 2)`; `min_digits` is the larger
of the item's own order and the target order, plus one; the hidden variant
is `$` + `min_digits` question marks + `.??`, the plain variant is `$` +
`total` zero-padded to `min_digits` integer digits with 2 decimals
(format string `"${:0{min_digits+3}.2f}"`). -/
noncomputable def Item.get_price_str (it : Item) (quantity : Option ℤ) (hide_price : Bool)
    (order : Option ℤ) : String :=
  let qty : ℤ := quantity.getD 1
  let total := round2 (it.price * qty)
  let normal_order := it.get_order
  let target_order := order.getD normal_order
  let min_digits := max (normal_order + 1) (target_order + 1)
  if hide_price then
    "$" ++ String.mk (List.replicate min_digits.toNat '?') ++ ".??"
  else
    "$" ++ py0pad (min_digits + 3).toNat (fmt2 total)

/-- `Item.get_list_item_str` (`core/items.py` lines 95-117): `"- name"`,
optionally with a `" (Nx)"` quantity suffix, optionally without the dash. -/
def Item.get_list_item_str (it : Item) (quantity : Option ℤ) (leading_dash : Bool) : String :=
  (if leading_dash then "- " else "") ++ it.name ++
    (match quantity with
     | none => ""
     | some q => " (" ++ intStr q ++ "x)")

/-- Python `repr` of a two-decimal float value (used by `repr(Item)` /
the f-string in the "added successfully" message): integer part, then the
fractional digits with the trailing zero of the cent digit dropped
(`5.0`, `4.1`, `3.25`, `3.05`). -/
def reprPrice (q : ℚ) : String :=
  let n := rhe (q * 100)
  let c := n.natAbs
  (if n < 0 then "-" else "") ++ natStr (c / 100) ++ "." ++
    (if c % 100 = 0 then "0"
     else if c % 100 % 10 = 0 then natStr (c % 100 / 10)
     else pad2 (c % 100))

/-- `Item.__repr__` (`core/items.py` lines 119-121): `Item(name, price)`. -/
def Item.reprStr (it : Item) : String :=
  "Item(" ++ it.name ++ ", " ++ reprPrice it.price ++ ")"

/-- The fragment of Python's `float(str)` parser that the application
exercises: optional sign, then either `digits`, `digits.digits?`, or
`.digits`; everything else (in particular any non-numeric command word)
raises `ValueError`, modelled as `none`.  (Exponents, `inf`/`nan` and
surrounding whitespace are outside the modelled fragment.) -/
def pyFloat? (s : String) : Option ℚ :=
  let cs := s.data
  let sgn : ℚ := if cs.head? = some '-' then -1 else 1
  let rest := if cs.head? = some '-' ∨ cs.head? = some '+' then cs.tail else cs
  let intPart := rest.takeWhile Char.isDigit
  let rest2 := rest.dropWhile Char.isDigit
  let digitsVal : List Char → ℕ := fun l => l.foldl (fun acc c => 10 * acc + (c.toNat - 48)) 0
  match rest2 with
  | [] => if intPart = [] then none else some (sgn * digitsVal intPart)
  | '.' :: fr =>
    if fr.all Char.isDigit ∧ (intPart ≠ [] ∨ fr ≠ []) then
      some (sgn * ((digitsVal intPart : ℚ) + (digitsVal fr : ℚ) / 10 ^ fr.length))
    else none
  | _ => none

/-- The item catalog (`core/items.py`, class `ItemPool`): a mapping from
unique names to items, modelled as the association list of the Python dict
in insertion order. -/
structure ItemPool where
  items : List (String × Item)
deriving DecidableEq

/-- `dict.values()` of the pool, in insertion order. -/
def ItemPool.values (p : ItemPool) : List Item := p.items.map Prod.snd

/-- `ItemPool.get_size` (`core/items.py` lines 200-207). -/
def ItemPool.get_size (p : ItemPool) : ℕ := p.items.length

/-- `ItemPool.add_item` (`core/items.py` lines 169-184): raises
`DuplicateItemError` when the name is already a key, otherwise inserts
(a new dict key is appended in insertion order).  The
`isinstance(item, Item)` check is discharged statically. -/
def ItemPool.add_item (p : ItemPool) (item : Item) : Except PyErr ItemPool :=
  if item.name ∈ p.items.map Prod.fst then .error .duplicateItem
  else .ok ⟨p.items ++ [(item.name, item)]⟩

/-- `ItemPool.remove_item` (`core/items.py` lines 186-198): raises
`NonExistingItemError` when the name is not a key, otherwise deletes the
entry (keys are unique, so the filter removes exactly it). -/
def ItemPool.remove_item (p : ItemPool) (item_name : String) : Except PyErr ItemPool :=
  if item_name ∈ p.items.map Prod.fst then
    .ok ⟨p.items.filter (fun kv => decide (kv.1 ≠ item_name))⟩
  else .error (.nonExistingItem item_name)

/-- `random.sample(l, k)` for `k ≤ l.length`, with the randomness supplied
by the oracle `sel`: at each step pick the element at position
`sel step % remaining` and remove it, so the result is `k` elements drawn
without replacement. -/
def pySample : List α → ℕ → (ℕ → ℕ) → List α
  | _, 0, _ => []
  | [], _ + 1, _ => []
  | a :: t, k + 1, sel =>
    let l := a :: t
    let i := sel 0 % l.length
    l.getD i a :: pySample (l.eraseIdx i) k (fun j => sel (j + 1))

/-- `ItemPool.sample_items` (`core/items.py` lines 209-221):
`random.sample(list(self.items.values()), min(sample_size, len(self.items)))`.
The method does not mutate the pool; the state-passing embedding returns the
(unchanged) pool together with the sample. -/
def ItemPool.sample_items (p : ItemPool) (sample_size : ℕ) (sel : ℕ → ℕ) :
    ItemPool × List Item :=
  (p, pySample p.values (min sample_size p.items.length) sel)

theorem pySample_length (l : List α) (k : ℕ) (sel : ℕ → ℕ) :
    (pySample l k sel).length = min k l.length := by
  induction k generalizing l sel with
  | zero => cases l <;> simp [pySample]
  | succ k ih =>
    cases l with
    | nil => simp [pySample]
    | cons a t =>
      have hi : sel 0 % (a :: t).length < (a :: t).length :=
        Nat.mod_lt _ (by simp)
      rw [pySample, List.length_cons, ih, List.length_eraseIdx_of_lt hi]
      simp only [List.length_cons, Nat.add_sub_cancel, Nat.succ_min_succ]

theorem pySample_subset (l : List α) (k : ℕ) (sel : ℕ → ℕ) :
    ∀ x ∈ pySample l k sel, x ∈ l := by
  induction k generalizing l sel with
  | zero => cases l <;> simp [pySample]
  | succ k ih =>
    cases l with
    | nil => simp [pySample]
    | cons a t =>
      have hi : sel 0 % (a :: t).length < (a :: t).length :=
        Nat.mod_lt _ (by simp)
      rw [pySample]
      intro x hx
      rcases List.mem_cons.mp hx with h | h
      · subst h
        rw [List.getD_eq_getElem _ _ hi]
        exact List.getElem_mem _
      · exact List.eraseIdx_subset _ _ (ih _ _ x h)

/-- `random.randint(1, n)` with randomness oracle `r`: Python raises
`ValueError` when the range is empty (`n < 1`). -/
def pyRandint1 (n : ℕ) (r : ℕ) : Except PyErr ℤ :=
  if n < 1 then .error .valueError else .ok (1 + (r % n : ℕ))

/-- `random.choices(range(1, 10), k=k)` with randomness oracle `r`:
`k` values, each in `[1, 9]`. -/
def pyChoices1to9 (k : ℕ) (r : ℕ → ℕ) : List ℤ :=
  (List.range k).map fun i => 1 + ((r i : ℤ) % 9)

/-- The shopping list (`core/shoppinglist.py`, class `ShoppingList`): an
ordered sequence of `(item, quantity)` pairs. -/
structure ShoppingList where
  list : List (Item × ℤ)
deriving DecidableEq

/-- `ShoppingList.refresh` (`core/shoppinglist.py` lines 37-68), with the
randomness of `random.randint`, `random.choices` and `random.sample`
supplied by the oracles `randSize`, `randQ` and `sel`:
size defaults to `randint(1, pool size)`; `ValueError` when the size is not
a positive integer; `InvalidShoppingListSizeError` when it exceeds the pool
size; quantities default to `choices(range(1,10), k=size)`; `ValueError`
when some quantity is not a positive integer; quantities shorter than
`size` are padded with 1, longer ones truncated; finally `size` items are
sampled from the pool and zipped with the quantities. -/
def ShoppingList.refresh (_sl : ShoppingList) (item_pool : ItemPool)
    (size? : Option ℤ) (quantities? : Option (List ℤ))
    (randSize : ℕ) (randQ : ℕ → ℕ) (sel : ℕ → ℕ) : Except PyErr ShoppingList :=
  match (match size? with
         | none => pyRandint1 item_pool.get_size randSize
         | some s => .ok s) with
  | .error e => .error e
  | .ok size =>
    if size < 1 then .error .valueError
    else if size > (item_pool.get_size : ℤ) then .error .invalidShoppingListSize
    else
      let quantities : List ℤ :=
        match quantities? with
        | none => pyChoices1to9 size.toNat randQ
        | some qs => qs
      if ¬ (∀ q ∈ quantities, 1 ≤ q) then .error .valueError
      else
        let quantities :=
          if quantities.length < size.toNat then
            quantities ++ List.replicate (size.toNat - quantities.length) 1
          else quantities
        let quantities :=
          if quantities.length > size.toNat then quantities.take size.toNat
          else quantities
        let items_list := (item_pool.sample_items size.toNat sel).2
        .ok ⟨List.zip items_list quantities⟩

/-- `ShoppingList.get_total_price` (`core/shoppinglist.py` lines 70-77):
`round(sum(item.price * qnt for (item, qnt) in self.list), 2)`. -/
def ShoppingList.get_total_price (sl : ShoppingList) : ℚ :=
  round2 ((sl.list.map fun pr => pr.1.price * (pr.2 : ℚ)).sum)

/-- `ShoppingList.get_item_price` (`core/shoppinglist.py` lines 79-90):
`round(self.list[i][0].price * self.list[i][1], 2)`.  Python list indexing
accepts `-len ≤ i < len` (negative indices count from the end) and raises
`IndexError` otherwise. -/
def ShoppingList.get_item_price (sl : ShoppingList) (i : ℤ) : Except PyErr ℚ :=
  let n := sl.list.length
  if -(n : ℤ) ≤ i ∧ i < (n : ℤ) then
    let j : ℕ := (if i < 0 then i + n else i).toNat
    let pr := sl.list.getD j (⟨"", 0⟩, 0)
    .ok (round2 (pr.1.price * (pr.2 : ℚ)))
  else .error .indexError

/-- `len(shopping_list)` (`core/shoppinglist.py` lines 92-99). -/
def ShoppingList.len (sl : ShoppingList) : ℕ := sl.list.length

/-- A value stored in the engine's `message` field: the sources sometimes
store a rendered string and sometimes (in the legacy `except` branches) the
raised error object itself. -/
inductive Msg where
  | text (s : String)
  | errObj (e : PyErr)
deriving DecidableEq

/-- The engine state (`shoppinglistapp/core/appengine.py` lines 22-36 and
`app_cli.py` lines 7-13, identical fields): the item pool, the shopping
list, the run flag, the last message and the pending quiz answer. -/
structure AppEngine where
  items : ItemPool
  shopping_list : ShoppingList
  continue_execution : Bool
  message : Option Msg
  correct_answer : Option ℚ
deriving DecidableEq

/-- `AppEngine.process_answer` (`shoppinglistapp/core/appengine.py` lines
38-61, the variant with `try/except ValueError`): `float(cmd)` either
parses (`pyFloat?` = `some`) or raises `ValueError` (`none`).  On parse
failure only the message is set; on success the answer is rounded to 2
decimals, compared against `correct_answer`, the message set accordingly
and `correct_answer` cleared.  (If `correct_answer` were `None`, the
f-string of the "Not Correct" branch would raise `TypeError`, which the
`except ValueError` does not catch.) -/
def AppEngine.process_answer (st : AppEngine) (cmd : String) :
    Except PyErr AppEngine :=
  match pyFloat? cmd with
  | none => .ok { st with message := some (.text "The provided answer is not a valid number!") }
  | some x =>
    let answer := round2 x
    if some answer = st.correct_answer then
      .ok { st with message := some (.text "Correct!"), correct_answer := none }
    else
      match st.correct_answer with
      | some c =>
        .ok { st with
          message := some (.text ("Not Correct! (Expected $" ++ fmt2 c ++ ")\nYou answered $" ++ fmt2 answer ++ ".")),
          correct_answer := none }
      | none => .error .typeError

/-- `AppEngine.process_add_item` (`shoppinglistapp/core/appengine.py` lines
63-98, the variant that catches `ValueError` and the domain errors):
parses `"add NAME: PRICE"`; a malformed payload yields the usage message;
otherwise the item is constructed and inserted, and on success the message
is `f"{item} added successfully."` (which renders `repr(item)`).  Each
caught error is stored in `message` as the raw error object
(`self.message = e`). -/
def AppEngine.process_add_item (st : AppEngine) (cmd : String) : AppEngine :=
  let item_str := pyDrop cmd 4
  match pySplit item_str ": " with
  | [name, price] =>
    (match pyFloat? price with
     | none => { st with message := some (.errObj .valueError) }
     | some pr =>
       match Item.construct name pr with
       | .error e => { st with message := some (.errObj e) }
       | .ok item =>
         match st.items.add_item item with
         | .error e => { st with message := some (.errObj e) }
         | .ok pool' =>
           { st with
             items := pool'
             message := some (.text (item.reprStr ++ " added successfully.")) })
  | _ =>
    { st with message := some (.text ("Cannot add \"" ++ item_str ++ "\".\nUsage: add <item_name>: <item_price>")) }

/-- `AppEngine.process_del_item` (`shoppinglistapp/core/appengine.py` lines
100-121): removes `cmd[4:]` from the pool; a `NonExistingItemError` is
caught and stored in `message` as the raw error object. -/
def AppEngine.process_del_item (st : AppEngine) (cmd : String) : AppEngine :=
  let item_name := pyDrop cmd 4
  match st.items.remove_item item_name with
  | .error e => { st with message := some (.errObj e) }
  | .ok pool' =>
    { st with
      items := pool'
      message := some (.text (item_name ++ " removed successfully.")) }

/-- Python `max(iterable)`: raises `ValueError` on an empty iterable. -/
def pyMaxNat (l : List ℕ) : Except PyErr ℕ :=
  match l with
  | [] => .error .valueError
  | a :: t => .ok (t.foldl max a)

/-- `AppEngine.show_items` (`app_cli.py` lines 15-31): header `ITEMS`, then
one line per item in lexicographic name order, dot-padded so the names
align, each price formatted against the maximal order of the catalog.
The two leading `max(...)` generator calls raise `ValueError` on an empty
pool. -/
noncomputable def AppEngine.show_items (st : AppEngine) : Except PyErr String := do
  let vals := st.items.values
  let max_name_len ← pyMaxNat (vals.map fun it => it.name.length)
  let max_order ←
    match vals.map Item.get_order with
    | [] => throw .valueError
    | a :: t => pure (t.foldl max a)
  let sorted_names := (st.items.items.map Prod.fst).insertionSort (· ≤ ·)
  let line := fun (item_name : String) =>
    let item := (st.items.items.lookup item_name).getD ⟨"", 0⟩
    let name_string := item.get_list_item_str none true
    let price_string := item.get_price_str none false (some max_order)
    let padding := max_name_len - item.name.length
    name_string ++ " " ++ ("..." ++ String.mk (List.replicate padding '.')) ++ " " ++
      price_string ++ "\n"
  pure (sorted_names.foldl (fun out nm => out ++ line nm) "ITEMS\n")

/-- `AppEngine.show_list` (`app_cli.py` lines 33-72): renders the shopping
list with optional masking.  `line_base_len` is
`max(len('TOTAL') - 4, max(name lengths))` — the inner `max` raises
`ValueError` on an empty list; the TOTAL pseudo-item is built through the
`Item` constructor (which raises `InvalidItemPriceError` when the total is
not positive); the TOTAL padding uses `q_len = 5`, `d_len = 2`. -/
noncomputable def AppEngine.show_list (st : AppEngine) (mask_index : Option ℤ) : Except PyErr String := do
  let inner ← pyMaxNat (st.shopping_list.list.map fun pr => pr.1.name.length)
  let line_base_len := max (5 - 4) inner
  let total ←
    match Item.construct "TOTAL" st.shopping_list.get_total_price with
    | .error e => throw e
    | .ok it => pure it
  let max_order := st.shopping_list.list.foldl (fun m pr => max m pr.1.get_order) total.get_order
  let max_name := st.shopping_list.list.foldl (fun m pr => max m pr.1.name.length) total.name.length
  let body := st.shopping_list.list.enum.foldl
    (fun out ipr =>
      let i := ipr.1
      let item := ipr.2.1
      let quantity := ipr.2.2
      let hide_price := mask_index = some (i : ℤ)
      let padding := line_base_len - item.name.length
      let name_string := item.get_list_item_str (some quantity) true
      let price_string := item.get_price_str (some quantity) hide_price (some max_order)
      out ++ name_string ++ " " ++ ("..." ++ String.mk (List.replicate padding '.')) ++ " " ++
        price_string ++ "\n")
    "SHOPPING LIST\n"
  let hide_price := mask_index = some (st.shopping_list.list.length : ℤ)
  let q_len := 5
  let d_len := 2
  let padding := max_name - 5 + q_len + d_len
  let total_name_string := total.get_list_item_str none false
  let total_price_string := total.get_price_str none hide_price (some max_order)
  let total_line := total_name_string ++ " " ++
    ("..." ++ String.mk (List.replicate padding '.')) ++ " " ++ total_price_string
  let hline := String.mk (List.replicate total_line.length '-') ++ "\n"
  pure (body ++ hline ++ total_line ++ "\n")

/-- `AppEngine.process_answer` of `app_cli.py` (lines 115-121): identical to
the engine variant except that there is no `try/except`, so the
`ValueError` of `float(cmd)` on a non-numeric answer propagates to the
caller. -/
def AppEngine.process_answer_cli (st : AppEngine) (cmd : String) :
    Except PyErr AppEngine :=
  match pyFloat? cmd with
  | none => .error .valueError
  | some x =>
    let answer := round2 x
    if some answer = st.correct_answer then
      .ok { st with message := some (.text "Correct!"), correct_answer := none }
    else
      match st.correct_answer with
      | some c =>
        .ok { st with
          message := some (.text ("Not Correct! (Expected $" ++ fmt2 c ++ ")\nYou answered $" ++ fmt2 answer ++ ".")),
          correct_answer := none }
      | none => .error .typeError

/-- `AppEngine.process_ask` (`app_cli.py` lines 107-113): draws
`q = randint(0, len(list))` and then evaluates
`self.shopping_list.show_list(...)` — but `ShoppingList` has no `show_list`
method (it is defined on `AppEngine`), so the attribute lookup raises
`AttributeError` unconditionally. -/
def AppEngine.process_ask (st : AppEngine) (r : ℕ) : Except PyErr AppEngine :=
  let _q : ℕ := r % (st.shopping_list.list.length + 1)
  .error .attributeError

/-- `AppEngine.process_show` (`app_cli.py` lines 123-131): dispatch on
`cmd[5:]`. -/
noncomputable def AppEngine.process_show (st : AppEngine) (cmd : String) : Except PyErr AppEngine := do
  let what := pyDrop cmd 5
  if what = "items" then
    let s ← st.show_items
    pure { st with message := some (.text s) }
  else if what = "list" then
    let s ← st.show_list none
    pure { st with message := some (.text s) }
  else
    pure { st with message := some (.text ("Cannot show " ++ what ++ ".\nUsage: show list|items")) }

/-- `AppEngine.process_add_item` of `app_cli.py` (lines 133-143): identical
to the engine variant but without `try/except`, so every error —
`ValueError` from `float`, the constructor errors, `DuplicateItemError` —
propagates. -/
def AppEngine.process_add_item_cli (st : AppEngine) (cmd : String) :
    Except PyErr AppEngine :=
  let item_str := pyDrop cmd 4
  match pySplit item_str ": " with
  | [name, price] => do
    let pr ←
      match pyFloat? price with
      | none => throw .valueError
      | some pr => pure pr
    let item ← Item.construct name pr
    let pool' ← st.items.add_item item
    pure { st with
           items := pool'
           message := some (.text (item.reprStr ++ " added successfully.")) }
  | _ =>
    .ok { st with message := some (.text ("Cannot add \"" ++ item_str ++ "\".\nUsage: add <item_name>: <item_price>")) }

/-- `AppEngine.process_del_item` of `app_cli.py` (lines 145-148): no
`try/except`, so `NonExistingItemError` propagates. -/
def AppEngine.process_del_item_cli (st : AppEngine) (cmd : String) :
    Except PyErr AppEngine := do
  let item_name := pyDrop cmd 4
  let pool' ← st.items.remove_item item_name
  pure { st with
         items := pool'
         message := some (.text (item_name ++ " removed successfully.")) }

/-- `AppEngine.execute_command` (`app_cli.py` lines 87-105): while an answer
is pending every input goes to `process_answer`; otherwise dispatch on the
command word.  `randAsk`, `randSize`, `randQ`, `sel` are the randomness
oracles of the `ask` and `list` branches.  A `.error` result is an uncaught
Python exception escaping `execute_command` (crashing the read loop of
`run`). -/
noncomputable def AppEngine.execute_command (st : AppEngine) (cmd : String)
    (randAsk : ℕ) (randSize : ℕ) (randQ : ℕ → ℕ) (sel : ℕ → ℕ) :
    Except PyErr AppEngine :=
  if st.correct_answer ≠ none then
    st.process_answer_cli cmd
  else if cmd = "q" ∨ cmd = "quit" then
    .ok { st with continue_execution := false, message := some (.text "Have a nice day!") }
  else if cmd = "a" ∨ cmd = "ask" then
    st.process_ask randAsk
  else if cmd = "l" ∨ cmd = "list" then do
    let sl' ← st.shopping_list.refresh st.items none none randSize randQ sel
    pure { st with
           shopping_list := sl'
           message := some (.text ("Shopping list with " ++ natStr sl'.list.length ++ " items has been created.")) }
  else if pyStartsWith cmd "show" then
    st.process_show cmd
  else if pyStartsWith cmd "add" then
    st.process_add_item_cli cmd
  else if pyStartsWith cmd "del" then
    st.process_del_item_cli cmd
  else
    .ok { st with message := some (.text ("\"" ++ cmd ++ "\" is not a valid command.")) }

/-- `Int.log` of a rational is unchanged by the cast to `ℝ`. -/
theorem int_log_ratCast {q : ℚ} (hq : 0 < q) : Int.log 10 ((q : ℝ)) = Int.log 10 q := by
  have hq' : (0 : ℝ) < (q : ℝ) := by exact_mod_cast hq
  apply le_antisymm
  · rw [← Int.zpow_le_iff_le_log (by norm_num) hq]
    have h := @Int.zpow_log_le_self ℝ _ _ 10 (q : ℝ) (by norm_num) hq'
    refine (Rat.cast_le (K := ℝ)).mp ?_
    push_cast
    exact_mod_cast h
  · rw [← Int.zpow_le_iff_le_log (by norm_num) hq']
    have h := @Int.zpow_log_le_self ℚ _ _ 10 q (by norm_num) hq
    have h2 := (Rat.cast_le (K := ℝ)).mpr h
    push_cast at h2
    exact_mod_cast h2


theorem floor_round10_logb_eq (q : ℚ) (hq : 0 < q) :
    ⌊pyRound10 (Real.logb 10 (q : ℝ))⌋ =
      if (10 : ℚ) ^ (2 * 10 ^ 10 * (Int.log 10 q + 1) - 1) ≤ q ^ (2 * 10 ^ 10 : ℕ)
      then Int.log 10 q + 1 else Int.log 10 q := by
  have hq' : (0 : ℝ) < (q : ℝ) := by exact_mod_cast hq
  set x : ℝ := Real.logb 10 ((q : ℝ)) with hxdef
  have hfloorx : ⌊x⌋ = Int.log 10 q := by
    rw [hxdef, show (10 : ℝ) = ((10 : ℕ) : ℝ) from by norm_num,
      Real.floor_logb_natCast (le_of_lt hq'), int_log_ratCast hq]
  set L : ℤ := Int.log 10 q with hLdef
  have hxlb : (L : ℝ) ≤ x := by
    rw [← hfloorx]
    exact Int.floor_le x
  have hxub : x < (L : ℝ) + 1 := by
    rw [← hfloorx]
    exact_mod_cast Int.lt_floor_add_one x
  have hq_rpow : ((q : ℝ)) = (10 : ℝ) ^ x := by
    rw [hxdef]
    exact (Real.rpow_logb (by norm_num) (by norm_num) hq').symm
  have hcond : ((10 : ℚ) ^ (2 * 10 ^ 10 * (L + 1) - 1) ≤ q ^ (2 * 10 ^ 10 : ℕ)) ↔
      ((L : ℝ) + 1 - 1 / (2 * 10 ^ 10) ≤ x) := by
    rw [← Rat.cast_le (K := ℝ)]
    push_cast
    rw [hq_rpow, ← Real.rpow_natCast ((10 : ℝ) ^ x) 20000000000,
      ← Real.rpow_intCast (10 : ℝ) (20000000000 * (L + 1) - 1),
      ← Real.rpow_mul (by norm_num : (0 : ℝ) ≤ 10),
      Real.rpow_le_rpow_left_iff (by norm_num : (1 : ℝ) < 10)]
    push_cast
    constructor
    · intro h'
      nlinarith [h']
    · intro h'
      nlinarith [h']
  unfold pyRound10
  by_cases hc : (10 : ℚ) ^ (2 * 10 ^ 10 * (L + 1) - 1) ≤ q ^ (2 * 10 ^ 10 : ℕ)
  · rw [if_pos hc]
    have hxc : (L : ℝ) + 1 - 1 / (2 * 10 ^ 10) ≤ x := hcond.mp hc
    have hm : ⌊x * 10 ^ 10 + 1 / 2⌋ = (L + 1) * 10 ^ 10 := by
      rw [Int.floor_eq_iff]
      constructor
      · push_cast
        nlinarith [hxc]
      · push_cast
        nlinarith [hxub]
    rw [hm, show (((L + 1) * 10 ^ 10 : ℤ) : ℝ) = ((L + 1 : ℤ) : ℝ) * 10 ^ 10 from by push_cast; ring,
      mul_div_cancel_right₀ _ (by norm_num : (10 : ℝ) ^ 10 ≠ 0), Int.floor_intCast]
  · rw [if_neg hc]
    have hxc : x < (L : ℝ) + 1 - 1 / (2 * 10 ^ 10) := by
      rcases lt_or_le x ((L : ℝ) + 1 - 1 / (2 * 10 ^ 10)) with h' | h'
      · exact h'
      · exact absurd (hcond.mpr h') hc
    have hmub : ⌊x * 10 ^ 10 + 1 / 2⌋ < (L + 1) * 10 ^ 10 := by
      rw [Int.floor_lt]
      push_cast
      nlinarith [hxc]
    have hmlb : L * 10 ^ 10 ≤ ⌊x * 10 ^ 10 + 1 / 2⌋ := by
      rw [Int.le_floor]
      push_cast
      nlinarith [hxlb]
    rw [Int.floor_eq_iff]
    constructor
    · rw [le_div_iff (by positivity)]
      calc ((L : ℝ)) * 10 ^ 10 = (((L * 10 ^ 10 : ℤ)) : ℝ) := by push_cast; ring
        _ ≤ _ := by exact_mod_cast hmlb
    · rw [div_lt_iff (by positivity)]
      have hm' : ⌊x * 10 ^ 10 + 1 / 2⌋ ≤ (L + 1) * 10 ^ 10 - 1 := by omega
      calc ((⌊x * 10 ^ 10 + 1 / 2⌋ : ℤ) : ℝ) ≤ (((L + 1) * 10 ^ 10 - 1 : ℤ) : ℝ) := by
            exact_mod_cast hm'
        _ < ((L : ℝ) + 1) * 10 ^ 10 := by push_cast; nlinarith

theorem int_log_le_floor_round10 (q : ℚ) (hq : 0 < q) :
    Int.log 10 q ≤ ⌊pyRound10 (Real.logb 10 (q : ℝ))⌋ := by
  rw [floor_round10_logb_eq q hq]
  split <;> omega

theorem floor_round10_logb_one : ⌊pyRound10 (Real.logb 10 ((1 : ℚ) : ℝ))⌋ = 0 := by
  have hL : Int.log 10 (1 : ℚ) = 0 := intLog10_eq (by norm_num) (by norm_num)
  rw [floor_round10_logb_eq 1 (by norm_num), hL]
  rw [if_neg ?_]
  push_neg
  rw [one_pow, show (2 * 10 ^ 10 * ((0 : ℤ) + 1) - 1) = ((19999999999 : ℕ) : ℤ) from by norm_num,
    zpow_natCast]
  exact one_lt_pow₀ (by norm_num) (by norm_num)

theorem floor_round10_logb_ten : ⌊pyRound10 (Real.logb 10 ((10 : ℚ) : ℝ))⌋ = 1 := by
  have hL : Int.log 10 (10 : ℚ) = 1 := intLog10_eq (by norm_num) (by norm_num)
  rw [floor_round10_logb_eq 10 (by norm_num), hL]
  rw [if_neg ?_]
  push_neg
  rw [show (2 * 10 ^ 10 * ((1 : ℤ) + 1) - 1) = ((39999999999 : ℕ) : ℤ) from by norm_num,
    zpow_natCast]
  exact pow_lt_pow_right₀ (by norm_num) (by norm_num)

theorem floor_round10_logb_hundred : ⌊pyRound10 (Real.logb 10 ((100 : ℚ) : ℝ))⌋ = 2 := by
  have hL : Int.log 10 (100 : ℚ) = 2 := intLog10_eq (by norm_num) (by norm_num)
  rw [floor_round10_logb_eq 100 (by norm_num), hL]
  rw [if_neg ?_]
  push_neg
  rw [show (2 * 10 ^ 10 * ((2 : ℤ) + 1) - 1) = ((59999999999 : ℕ) : ℤ) from by norm_num,
    zpow_natCast, show (100 : ℚ) = 10 ^ (2 : ℕ) from by norm_num, ← pow_mul]
  exact pow_lt_pow_right₀ (by norm_num) (by norm_num)

theorem floor_round10_logb_099 : ⌊pyRound10 (Real.logb 10 ((99 / 100 : ℚ) : ℝ))⌋ = -1 := by
  have hL : Int.log 10 (99 / 100 : ℚ) = -1 := intLog10_eq (by norm_num) (by norm_num)
  rw [floor_round10_logb_eq (99 / 100) (by norm_num), hL]
  rw [if_neg ?_]
  push_neg
  rw [show (2 * 10 ^ 10 * ((-1 : ℤ) + 1) - 1) = (-1 : ℤ) from by norm_num]
  calc ((99 : ℚ) / 100) ^ (2 * 10 ^ 10 : ℕ) ≤ (99 / 100) ^ (250 : ℕ) :=
        pow_le_pow_of_le_one (by norm_num) (by norm_num) (by norm_num)
    _ < (10 : ℚ) ^ (-1 : ℤ) := by norm_num

theorem floor_round10_logb_five : ⌊pyRound10 (Real.logb 10 ((5 : ℚ) : ℝ))⌋ = 0 := by
  have hL : Int.log 10 (5 : ℚ) = 0 := intLog10_eq (by norm_num) (by norm_num)
  rw [floor_round10_logb_eq 5 (by norm_num), hL]
  rw [if_neg ?_]
  push_neg
  rw [show (2 * 10 ^ 10 * ((0 : ℤ) + 1) - 1) = ((19999999999 : ℕ) : ℤ) from by norm_num,
    zpow_natCast]
  have h2 : (10 : ℚ) < 2 ^ (20000000000 : ℕ) :=
    lt_of_lt_of_le (show (10 : ℚ) < 2 ^ (4 : ℕ) from by norm_num)
      (pow_le_pow_right₀ (by norm_num) (by norm_num : (4 : ℕ) ≤ 20000000000))
  have key : (5 : ℚ) ^ (20000000000 : ℕ) * 10 < 10 ^ (20000000000 : ℕ) := by
    calc (5 : ℚ) ^ (20000000000 : ℕ) * 10 < 5 ^ (20000000000 : ℕ) * 2 ^ (20000000000 : ℕ) :=
          mul_lt_mul_of_pos_left h2 (pow_pos (by norm_num) _)
      _ = 10 ^ (20000000000 : ℕ) := by
          rw [← mul_pow, show (5 : ℚ) * 2 = 10 from by norm_num]
  have hsplit : (10 : ℚ) ^ (20000000000 : ℕ) = 10 ^ (19999999999 : ℕ) * 10 := by
    rw [← pow_succ]
  rw [hsplit] at key
  show (5 : ℚ) ^ (20000000000 : ℕ) < 10 ^ (19999999999 : ℕ)
  exact lt_of_mul_lt_mul_right key (by norm_num)

/-- C4: `get_order()` returns `floor(round(log10(price), 10))` — the
model's `Item.get_order` is by definition the floor of `pyRound10` (round
to 10 decimal places) of `log₁₀ price` — and it is exact at the boundary
prices: 1.0 ↦ 0, 10.0 ↦ 1, 100.0 ↦ 2, 0.99 ↦ -1 (each boundary value is
computed through `floor_round10_logb_eq`, which locates the only inputs
where the pre-floor rounding matters). -/
theorem get_order_floor_log_and_boundaries :
    (∀ it : Item, it.get_order = ⌊pyRound10 (Real.logb 10 (it.price : ℝ))⌋) ∧
    Item.get_order ⟨"x", 1⟩ = 0 ∧ Item.get_order ⟨"x", 10⟩ = 1 ∧
    Item.get_order ⟨"x", 100⟩ = 2 ∧ Item.get_order ⟨"x", 99/100⟩ = -1 :=
  ⟨fun _ => rfl, floor_round10_logb_one, floor_round10_logb_ten,
    floor_round10_logb_hundred, floor_round10_logb_099⟩

/-- C4 witness: the formula conjunct applied at the concrete item of
price 5, together with that item's computed order. -/
theorem get_order_floor_log_witness :
    (⟨"x", 5⟩ : Item).get_order = ⌊pyRound10 (Real.logb 10 (((⟨"x", 5⟩ : Item).price : ℚ) : ℝ))⌋ ∧
    (⟨"x", 5⟩ : Item).get_order = 0 :=
  ⟨get_order_floor_log_and_boundaries.1 ⟨"x", 5⟩, floor_round10_logb_five⟩

/-- C3: the constructor accepts every positive price, including values
below 0.005; for the input 0.004 it succeeds and stores
`round(0.004, 2) = 0.0`, so the stored price of the accepted item is 0 —
the claimed invariant `price > 0` does not survive construction. -/
theorem construct_accepts_subcent_price :
    Item.construct "x" (1/250) = .ok ⟨"x", 0⟩ := by
  have h : round2 (1/250 : ℚ) = 0 := by
    unfold round2 rhe
    norm_num
  unfold Item.construct
  rw [if_neg (by decide), if_neg (by norm_num), h]

/-- C7: executing one command does not always complete without an uncaught
error: in the `app_cli.py` variant, with an answer pending
(`correct_answer` set), the input `"abc"` reaches `process_answer`, whose
`float(cmd)` raises `ValueError` with no `try/except` around it — the
exception escapes `execute_command` and kills the read loop. -/
theorem execute_command_uncaught_error :
    AppEngine.execute_command ⟨⟨[]⟩, ⟨[]⟩, true, none, some 1⟩ "abc"
      0 0 (fun _ => 0) (fun _ => 0) = .error .valueError := rfl

/-- C8: a domain error does not always end up as a rendered string: in
`process_del_item` (and the other legacy `except` branches) the raised
error object itself is stored into `message` (`self.message = e`), here the
`NonExistingItemError` for a name absent from the pool. -/
theorem del_item_stores_raw_error_object :
    (AppEngine.process_del_item ⟨⟨[("Milk", ⟨"Milk", 17/4⟩)]⟩, ⟨[]⟩, true, none, none⟩
      "del Bread").message = some (.errObj (.nonExistingItem "Bread")) := rfl

/-- C10: sampling does not mutate the pool — the name-to-item mapping after
the call is exactly the one before — and every sampled item is one of the
pool's items. -/
theorem sample_items_frame (p : ItemPool) (n : ℕ) (sel : ℕ → ℕ) :
    (p.sample_items n sel).1 = p ∧
    ∀ it ∈ (p.sample_items n sel).2, it ∈ p.items.map Prod.snd :=
  ⟨rfl, fun it h => pySample_subset _ _ _ it h⟩

/-- C10 witness: the frame property applied to a concrete one-item pool,
with the membership hypothesis discharged on the concrete sample. -/
theorem sample_items_frame_witness :
    (ItemPool.sample_items ⟨[("A", ⟨"A", 2⟩)]⟩ 1 (fun _ => 0)).1 = ⟨[("A", ⟨"A", 2⟩)]⟩ ∧
    (⟨"A", 2⟩ : Item) ∈ (⟨[("A", ⟨"A", 2⟩)]⟩ : ItemPool).items.map Prod.snd :=
  ⟨(sample_items_frame _ 1 _).1,
   (sample_items_frame ⟨[("A", ⟨"A", 2⟩)]⟩ 1 (fun _ => 0)).2 ⟨"A", 2⟩
     (List.mem_singleton.mpr rfl)⟩

/-- C1: with an answer pending (`correct_answer = some c`), an input that
does not parse as a float only sets the not-a-number message — the pending
answer is untouched, the state stays awaiting; an input that parses to `x`
is rounded to 2 decimals, the message is `"Correct!"` exactly when the
rounded value equals `c` and otherwise reports both amounts to two
decimals, and the pending answer is cleared in both outcomes. -/
theorem process_answer_awaiting (st : AppEngine) (c : ℚ) (cmd : String)
    (h : st.correct_answer = some c) :
    (pyFloat? cmd = none →
      st.process_answer cmd =
        .ok { st with message := some (.text "The provided answer is not a valid number!") }) ∧
    (∀ x : ℚ, pyFloat? cmd = some x →
      st.process_answer cmd =
        .ok { st with
          message := some (.text (if round2 x = c then "Correct!"
            else "Not Correct! (Expected $" ++ fmt2 c ++ ")\nYou answered $" ++
              fmt2 (round2 x) ++ ".")),
          correct_answer := none }) := by
  constructor
  · intro hp
    simp only [AppEngine.process_answer, hp]
  · intro x hp
    simp only [AppEngine.process_answer, hp, h, Option.some.injEq]
    by_cases hx : round2 x = c
    · simp [hx]
    · simp [hx]

/-- C1 witness: the not-a-number branch at the concrete awaiting state
(pending answer 5.25) and input `"abc"`, and the correct-answer branch at
input `"5.25"`. -/
theorem process_answer_awaiting_witness :
    (AppEngine.process_answer ⟨⟨[]⟩, ⟨[]⟩, true, none, some (21/4)⟩ "abc" =
      .ok { items := ⟨[]⟩, shopping_list := ⟨[]⟩, continue_execution := true,
            message := some (.text "The provided answer is not a valid number!"),
            correct_answer := some (21/4) }) ∧
    (AppEngine.process_answer ⟨⟨[]⟩, ⟨[]⟩, true, none, some (21/4)⟩ "5.25" =
      .ok { items := ⟨[]⟩, shopping_list := ⟨[]⟩, continue_execution := true,
            message := some (.text (if round2 (21/4) = 21/4 then "Correct!"
              else "Not Correct! (Expected $" ++ fmt2 (21/4) ++ ")\nYou answered $" ++
                fmt2 (round2 (21/4)) ++ ".")),
            correct_answer := none }) := by
  have hp : pyFloat? "5.25" = some (21/4) := by
    show some _ = _
    rw [if_neg (by decide)]
    have hd5 : '5'.isDigit = true := rfl
    have hd2 : '2'.isDigit = true := rfl
    have hdp : '.'.isDigit = false := rfl
    have h2 : '2'.toNat = 50 := rfl
    have h5 : '5'.toNat = 53 := rfl
    norm_num [hd5, hd2, hdp, h2, h5, List.takeWhile, List.foldl]
  exact ⟨(process_answer_awaiting _ (21/4) "abc" rfl).1 (by decide),
    (process_answer_awaiting _ (21/4) "5.25" rfl).2 (21/4) hp⟩

/-- C9 counterexample: `get_item_price` does not fail for every negative
index — Python list indexing counts negative indices from the end, so on a
one-line list index `-1` returns that line's price (here 2.00 × 3 = 6.00)
instead of raising `IndexError`. -/
theorem get_item_price_neg_index_returns_price :
    ShoppingList.get_item_price ⟨[(⟨"A", 2⟩, 3)]⟩ (-1) = .ok 6 := by
  simp only [ShoppingList.get_item_price]
  rw [if_pos (by constructor <;> decide)]
  norm_num
  unfold round2 rhe
  norm_num

/-- C9 (amended): `get_item_price(i)` returns the 2-decimal rounded
`price × quantity` of line `i` for `0 ≤ i < length`, of line `length + i`
for `-length ≤ i < 0` (Python's negative indexing), and fails with
`IndexError` exactly for `i ≥ length` and `i < -length`. -/
theorem get_item_price_index_spec (sl : ShoppingList) (i : ℤ) :
    (0 ≤ i → i < (sl.list.length : ℤ) →
      sl.get_item_price i =
        .ok (round2 ((sl.list.getD i.toNat (⟨"", 0⟩, 0)).1.price *
          ((sl.list.getD i.toNat (⟨"", 0⟩, 0)).2 : ℚ)))) ∧
    (-(sl.list.length : ℤ) ≤ i → i < 0 →
      sl.get_item_price i =
        .ok (round2 ((sl.list.getD (i + sl.list.length).toNat (⟨"", 0⟩, 0)).1.price *
          ((sl.list.getD (i + sl.list.length).toNat (⟨"", 0⟩, 0)).2 : ℚ)))) ∧
    ((i < -(sl.list.length : ℤ) ∨ (sl.list.length : ℤ) ≤ i) →
      sl.get_item_price i = .error .indexError) := by
  refine ⟨?_, ?_, ?_⟩
  · intro h0 hlt
    simp only [ShoppingList.get_item_price]
    rw [if_pos ⟨by omega, hlt⟩, if_neg (by omega)]
  · intro hle hneg
    simp only [ShoppingList.get_item_price]
    rw [if_pos ⟨hle, by omega⟩, if_pos hneg]
  · intro h
    simp only [ShoppingList.get_item_price]
    rw [if_neg (by omega)]

/-- C9 witness: the three index regimes of `get_item_price` at a concrete
two-line list — a valid nonnegative index, a valid negative index, and an
out-of-range index. -/
theorem get_item_price_index_spec_witness :
    (ShoppingList.get_item_price ⟨[(⟨"A", 2⟩, 3), (⟨"B", 5⟩, 1)]⟩ 1 =
      .ok (round2 (((([(⟨"A", 2⟩, 3), (⟨"B", 5⟩, 1)] : List (Item × ℤ)).getD 1 (⟨"", 0⟩, 0)).1.price) *
        ((([(⟨"A", 2⟩, 3), (⟨"B", 5⟩, 1)] : List (Item × ℤ)).getD 1 (⟨"", 0⟩, 0)).2 : ℚ)))) ∧
    (ShoppingList.get_item_price ⟨[(⟨"A", 2⟩, 3), (⟨"B", 5⟩, 1)]⟩ (-2) =
      .ok (round2 (((([(⟨"A", 2⟩, 3), (⟨"B", 5⟩, 1)] : List (Item × ℤ)).getD ((-2 : ℤ) + 2).toNat (⟨"", 0⟩, 0)).1.price) *
        ((([(⟨"A", 2⟩, 3), (⟨"B", 5⟩, 1)] : List (Item × ℤ)).getD ((-2 : ℤ) + 2).toNat (⟨"", 0⟩, 0)).2 : ℚ)))) ∧
    ShoppingList.get_item_price ⟨[(⟨"A", 2⟩, 3), (⟨"B", 5⟩, 1)]⟩ 5 = .error .indexError :=
  ⟨(get_item_price_index_spec ⟨[(⟨"A", 2⟩, 3), (⟨"B", 5⟩, 1)]⟩ 1).1 (by decide) (by decide),
   (get_item_price_index_spec ⟨[(⟨"A", 2⟩, 3), (⟨"B", 5⟩, 1)]⟩ (-2)).2.1 (by decide) (by decide),
   (get_item_price_index_spec ⟨[(⟨"A", 2⟩, 3), (⟨"B", 5⟩, 1)]⟩ 5).2.2 (Or.inr (by decide))⟩

/-- C5: with a pool of at least `size` items and a valid quantities list,
`refresh` succeeds and reconciles the quantities positionally: the result
has exactly `size` lines and its quantity column is the given list padded
with 1 (when shorter than `size`) or truncated to the first `size` entries
(when longer). -/
theorem refresh_reconciles (pool : ItemPool) (sl : ShoppingList) (size : ℤ) (qts : List ℤ)
    (rs : ℕ) (rq sel : ℕ → ℕ)
    (h1 : 1 ≤ size) (h2 : size ≤ (pool.get_size : ℤ)) (h3 : ∀ q ∈ qts, 1 ≤ q) :
    ∃ sl', sl.refresh pool (some size) (some qts) rs rq sel = .ok sl' ∧
      sl'.list.length = size.toNat ∧
      sl'.list.map Prod.snd =
        (qts ++ List.replicate (size.toNat - qts.length) 1).take size.toNat := by
  have hq2 :
      (if (if qts.length < size.toNat then qts ++ List.replicate (size.toNat - qts.length) 1 else qts).length > size.toNat
       then (if qts.length < size.toNat then qts ++ List.replicate (size.toNat - qts.length) 1 else qts).take size.toNat
       else (if qts.length < size.toNat then qts ++ List.replicate (size.toNat - qts.length) 1 else qts)) =
        (qts ++ List.replicate (size.toNat - qts.length) 1).take size.toNat := by
    by_cases hlen : qts.length < size.toNat
    · rw [if_pos hlen]
      have hl : (qts ++ List.replicate (size.toNat - qts.length) 1).length = size.toNat := by
        simp only [List.length_append, List.length_replicate]
        omega
      rw [if_neg (by omega)]
      exact (List.take_of_length_le (by omega)).symm
    · rw [if_neg hlen]
      have hrep : size.toNat - qts.length = 0 := by omega
      rw [hrep]
      simp only [List.replicate_zero, List.append_nil]
      by_cases hgt : qts.length > size.toNat
      · rw [if_pos hgt]
      · rw [if_neg hgt]
        exact (List.take_of_length_le (by omega)).symm
  have hq2len : ((qts ++ List.replicate (size.toNat - qts.length) 1).take size.toNat).length = size.toNat := by
    simp only [List.length_take, List.length_append, List.length_replicate]
    omega
  have hitems : (pool.sample_items size.toNat sel).2.length = size.toNat := by
    show (pySample pool.values (min size.toNat pool.items.length) sel).length = size.toNat
    rw [pySample_length]
    have hv : pool.values.length = pool.items.length := List.length_map _ _
    rw [hv]
    have : size.toNat ≤ pool.items.length := by
      have := h2
      unfold ItemPool.get_size at this
      omega
    omega
  refine ⟨⟨List.zip (pool.sample_items size.toNat sel).2
      ((qts ++ List.replicate (size.toNat - qts.length) 1).take size.toNat)⟩, ?_, ?_, ?_⟩
  · simp only [ShoppingList.refresh]
    rw [if_neg (by omega), if_neg (by omega), if_neg (by simpa using h3), hq2]
  · show (List.zip (pool.sample_items size.toNat sel).2 _).length = size.toNat
    rw [List.length_zip, hitems, hq2len]
    omega
  · show (List.zip (pool.sample_items size.toNat sel).2 _).map Prod.snd = _
    rw [List.map_snd_zip _ _ (by rw [hitems, hq2len])]

/-- C5 witness: on a concrete three-item pool, `refresh(size=3,
quantities=[2])` yields 3 lines with quantities `[2, 1, 1]`, and
`refresh(size=2, quantities=[2, 3, 4, 5])` yields quantities `[2, 3]`. -/
theorem refresh_reconciles_witness :
    (∃ sl', ShoppingList.refresh ⟨[]⟩ ⟨[("A", ⟨"A", 2⟩), ("B", ⟨"B", 3⟩), ("C", ⟨"C", 4⟩)]⟩
        (some 3) (some [2]) 0 (fun _ => 0) (fun _ => 0) = .ok sl' ∧
      sl'.list.length = 3 ∧ sl'.list.map Prod.snd = [2, 1, 1]) ∧
    (∃ sl', ShoppingList.refresh ⟨[]⟩ ⟨[("A", ⟨"A", 2⟩), ("B", ⟨"B", 3⟩), ("C", ⟨"C", 4⟩)]⟩
        (some 2) (some [2, 3, 4, 5]) 0 (fun _ => 0) (fun _ => 0) = .ok sl' ∧
      sl'.list.length = 2 ∧ sl'.list.map Prod.snd = [2, 3]) := by
  constructor
  · obtain ⟨sl', he, hlen, hmap⟩ :=
      refresh_reconciles ⟨[("A", ⟨"A", 2⟩), ("B", ⟨"B", 3⟩), ("C", ⟨"C", 4⟩)]⟩ ⟨[]⟩ 3 [2]
        0 (fun _ => 0) (fun _ => 0) (by decide) (by decide) (by decide)
    exact ⟨sl', he, by simpa using hlen, by rw [hmap]; decide⟩
  · obtain ⟨sl', he, hlen, hmap⟩ :=
      refresh_reconciles ⟨[("A", ⟨"A", 2⟩), ("B", ⟨"B", 3⟩), ("C", ⟨"C", 4⟩)]⟩ ⟨[]⟩ 2 [2, 3, 4, 5]
        0 (fun _ => 0) (fun _ => 0) (by decide) (by decide) (by decide)
    exact ⟨sl', he, by simpa using hlen, by rw [hmap]; decide⟩

/-- Mapping a function of the `i`-th element over `range (length l)` is
mapping over the list itself. -/
theorem map_range_getD (l : List α) (d : α) (f : α → β) :
    (List.range l.length).map (fun i => f (l.getD i d)) = l.map f := by
  induction l with
  | nil => simp
  | cons a t ih =>
    rw [List.length_cons, List.range_succ_eq_map]
    simp only [List.map_cons, List.map_map, List.getD_cons_zero]
    rw [show (fun i => f ((a :: t).getD i d)) ∘ Nat.succ = fun i => f (t.getD i d) from rfl, ih]

/-- `get_item_price` at a valid nonnegative index. -/
theorem get_item_price_of_lt (sl : ShoppingList) (i : ℕ) (h : i < sl.list.length) :
    sl.get_item_price (i : ℤ) =
      .ok (round2 ((sl.list.getD i (⟨"", 0⟩, 0)).1.price *
        ((sl.list.getD i (⟨"", 0⟩, 0)).2 : ℚ))) := by
  simp only [ShoppingList.get_item_price]
  rw [if_pos ⟨by omega, by exact_mod_cast h⟩, if_neg (by omega)]
  rw [Int.toNat_natCast]

/-- C6: on a list whose prices are 2-decimal values (as every constructed
item's price is) with integer quantities ≥ 1, the end-rounded total equals
the sum of the per-line rounded prices `linePrice(i)` over all valid
indices. -/
theorem total_price_eq_sum_line_prices (sl : ShoppingList)
    (hp : ∀ pr ∈ sl.list, ∃ c : ℤ, pr.1.price = (c : ℚ) / 100)
    (_hq : ∀ pr ∈ sl.list, 1 ≤ pr.2) :
    sl.get_total_price =
      ((List.range sl.list.length).map
        (fun i : ℕ => ((sl.get_item_price (i : ℤ)).toOption.getD 0))).sum := by
  have key : (List.range sl.list.length).map
        (fun i : ℕ => ((sl.get_item_price (i : ℤ)).toOption.getD 0)) =
      sl.list.map (fun pr => round2 (pr.1.price * (pr.2 : ℚ))) := by
    rw [← map_range_getD sl.list (⟨"", 0⟩, 0) (fun pr => round2 (pr.1.price * (pr.2 : ℚ)))]
    apply List.map_congr_left
    intro i hi
    rw [get_item_price_of_lt sl i (List.mem_range.mp hi)]
    rfl
  rw [key]
  have hline : sl.list.map (fun pr => round2 (pr.1.price * (pr.2 : ℚ))) =
      sl.list.map (fun pr => pr.1.price * (pr.2 : ℚ)) := by
    apply List.map_congr_left
    intro pr hpr
    obtain ⟨c, hc⟩ := hp pr hpr
    rw [hc, show (c : ℚ) / 100 * (pr.2 : ℚ) = ((c * pr.2 : ℤ) : ℚ) / 100 by push_cast; ring,
      round2_cents]
  rw [hline]
  have hsum : ∀ l : List (Item × ℤ), (∀ pr ∈ l, ∃ c : ℤ, pr.1.price = (c : ℚ) / 100) →
      ∃ N : ℤ, (l.map (fun pr => pr.1.price * (pr.2 : ℚ))).sum = (N : ℚ) / 100 := by
    intro l
    induction l with
    | nil => exact fun _ => ⟨0, by simp⟩
    | cons a t ih =>
      intro hl
      obtain ⟨c, hc⟩ := hl a (List.mem_cons_self _ _)
      obtain ⟨N, hN⟩ := ih fun pr hpr => hl pr (List.mem_cons_of_mem _ hpr)
      refine ⟨c * a.2 + N, ?_⟩
      simp only [List.map_cons, List.sum_cons, hN, hc]
      push_cast
      ring
  obtain ⟨N, hN⟩ := hsum sl.list hp
  unfold ShoppingList.get_total_price
  rw [hN, round2_cents]

/-- C6 witness: the total/per-line identity at a concrete one-line list
(price 2.00, quantity 3). -/
theorem total_price_eq_sum_line_prices_witness :
    ShoppingList.get_total_price ⟨[(⟨"A", 2⟩, 3)]⟩ =
      ((List.range ((⟨[(⟨"A", 2⟩, 3)]⟩ : ShoppingList).list.length)).map
        (fun i : ℕ => (((⟨[(⟨"A", 2⟩, 3)]⟩ : ShoppingList).get_item_price (i : ℤ)).toOption.getD 0))).sum :=
  total_price_eq_sum_line_prices ⟨[(⟨"A", 2⟩, 3)]⟩
    (by
      intro pr hpr
      rw [List.mem_singleton] at hpr
      exact ⟨200, by rw [hpr]; norm_num⟩)
    (by
      intro pr hpr
      rw [List.mem_singleton] at hpr
      rw [hpr]
      decide)

theorem length_mk (l : List Char) : (String.mk l).length = l.length := rfl

theorem round2_natCents (c : ℕ) : round2 ((c : ℚ) / 100) = (c : ℚ) / 100 := by
  have h := round2_cents (c : ℤ)
  push_cast at h
  exact h

theorem rhe_natCast (c : ℕ) : rhe ((c : ℚ)) = (c : ℤ) := by
  have h := rhe_intCast (c : ℤ)
  push_cast at h
  exact h

theorem intLog10_natCents (c : ℕ) (h : 100 ≤ c) :
    Int.log 10 ((c : ℚ) / 100) = (Nat.log 10 (c / 100) : ℤ) := by
  have hc : (100 : ℚ) ≤ (c : ℚ) := by exact_mod_cast h
  have hr : (1 : ℚ) ≤ (c : ℚ) / 100 := (one_le_div (by norm_num)).mpr hc
  rw [Int.log_of_one_le_right 10 hr]
  congr 1
  rw [show (100 : ℚ) = ((100 : ℕ) : ℚ) from by norm_num, Nat.floor_div_nat, Nat.floor_natCast]

theorem fmt2_natCents (c : ℕ) :
    fmt2 ((c : ℚ) / 100) = natStr (c / 100) ++ "." ++ pad2 (c % 100) := by
  unfold fmt2
  rw [div_mul_cancel₀ _ (by norm_num : (100 : ℚ) ≠ 0), rhe_natCast]
  rw [if_neg (by omega), Int.toNat_natCast]

theorem fmt2_natCents_length (c : ℕ) :
    (fmt2 ((c : ℚ) / 100)).length = Nat.log 10 (c / 100) + 4 := by
  rw [fmt2_natCents, String.length_append, String.length_append, natStr_length,
    pad2_length _ (Nat.mod_lt _ (by norm_num))]
  rfl

/-- C2 counterexample: the masked and unmasked price strings do not have
the same length for every valid item, quantity and order.  For the valid
item of price 0.99 (own order -1) with default quantity and order, the
masked string is `$.??` (4 characters) while the unmasked one is `$0.99`
(5 characters); and for price 5.00 with quantity 3 the masked string `$?.??`
(5 characters) is shorter than the unmasked `$15.00` (6 characters),
because the mask is sized from the single item's order while the plain
string holds the quantity-multiplied total. -/
theorem get_price_str_mask_len_counterexample :
    ((Item.get_price_str ⟨"x", 99/100⟩ none true none).length = 4 ∧
     (Item.get_price_str ⟨"x", 99/100⟩ none false none).length = 5) ∧
    ((Item.get_price_str ⟨"x", 5⟩ (some 3) true none).length = 5 ∧
     (Item.get_price_str ⟨"x", 5⟩ (some 3) false none).length = 6) := by
  have h1 : ⌊pyRound10 (Real.logb 10 ((99 / 100 : ℚ) : ℝ))⌋ = -1 := floor_round10_logb_099
  have h2 : ⌊pyRound10 (Real.logb 10 ((5 : ℚ) : ℝ))⌋ = 0 := floor_round10_logb_five
  have hA1 : round2 ((99/100 : ℚ) * ((1 : ℤ) : ℚ)) = 99/100 := by
    unfold round2 rhe
    norm_num
  have hB1 : rhe ((99/100 : ℚ) * 100) = 99 := by
    unfold rhe
    norm_num
  have hA2 : round2 ((5 : ℚ) * ((3 : ℤ) : ℚ)) = 15 := by
    unfold round2 rhe
    norm_num
  have hB2 : rhe ((15 : ℚ) * 100) = 1500 := by
    unfold rhe
    norm_num
  refine ⟨⟨?_, ?_⟩, ?_, ?_⟩
  · simp only [Item.get_price_str, Item.get_order, Option.getD_none, h1]
    decide
  · simp only [Item.get_price_str, Item.get_order, Option.getD_none, h1, hA1, fmt2, hB1]
    decide
  · simp only [Item.get_price_str, Item.get_order, Option.getD_some, h2]
    decide
  · simp only [Item.get_price_str, Item.get_order, Option.getD_some, h2, hA2, fmt2, hB2]
    decide

/-- C2 (amended): for every item whose stored price is a two-decimal value
at least 1 (`price = c/100` with `c ≥ 100` — what the constructor stores
for any price ≥ 1), with the quantity argument omitted (i.e. 1) and any
target order argument, the masked price string has exactly the same length
as the unmasked one.  (The counterexample forces both restrictions: prices
below 1 and quantities above 1 break the equality.) -/
theorem get_price_str_mask_preserves_length (name : String) (c : ℕ) (o : Option ℤ)
    (h : 100 ≤ c) :
    (Item.get_price_str ⟨name, (c : ℚ) / 100⟩ none true o).length =
    (Item.get_price_str ⟨name, (c : ℚ) / 100⟩ none false o).length := by
  have htot : round2 ((c : ℚ) / 100 * ((1 : ℤ) : ℚ)) = (c : ℚ) / 100 := by
    push_cast
    rw [mul_one]
    exact_mod_cast round2_natCents c
  have hpos : (0 : ℚ) < (c : ℚ) / 100 := by
    have hc : (0 : ℚ) < (c : ℚ) := by exact_mod_cast (by omega : 0 < c)
    positivity
  have hNle : (Nat.log 10 (c / 100) : ℤ) ≤ ⌊pyRound10 (Real.logb 10 (((c : ℚ) / 100 : ℚ) : ℝ))⌋ := by
    rw [← intLog10_natCents c h]
    exact int_log_le_floor_round10 _ hpos
  simp only [Item.get_price_str, Item.get_order, Option.getD_none, htot]
  norm_num
  rw [py0pad_length, fmt2_natCents_length]
  rw [show ("$".length) = 1 from rfl, show (".??".length) = 3 from rfl]
  have hle : (⌊pyRound10 (Real.logb 10 (((c : ℚ) / 100 : ℚ) : ℝ))⌋ + 1) ≤
      (⌊pyRound10 (Real.logb 10 (((c : ℚ) / 100 : ℚ) : ℝ))⌋ + 1) ⊔
        (o.getD ⌊pyRound10 (Real.logb 10 (((c : ℚ) / 100 : ℚ) : ℝ))⌋ + 1) :=
    le_max_left _ _
  push_cast at hNle hle ⊢
  omega

/-- C2 witness: the amended length equality at the concrete item of price
3.25 with target order 3. -/
theorem get_price_str_mask_preserves_length_witness :
    100 ≤ 325 ∧
    ((Item.get_price_str ⟨"bread", (325 : ℚ) / 100⟩ none true (some 3)).length =
     (Item.get_price_str ⟨"bread", (325 : ℚ) / 100⟩ none false (some 3)).length) :=
  ⟨by decide, get_price_str_mask_preserves_length "bread" 325 (some 3) (by decide)⟩
